import Mathlib

/-!
Verification of the mdh-monitoring domain analyzer
(`src/mdh_analyzer/domain_analyzer.py`) against its specification.

The Python module is shallowly embedded: every network call (DNS resolution,
HTTP HEAD request, WHOIS lookup, file reads) is abstracted into an oracle
("environment") mapping a domain to the observable outcome of the call, and
each Python function is translated into a total Lean function over those
oracles.  Status values are kept as the literal strings the source uses
("NOERROR", "registered", ...), so that the truth tables of the source are
reproduced verbatim.  Wall-clock timestamps (`analyzed_at`, `generated_at`)
are metadata outside the model and are omitted from result records.
-/

namespace MdhAnalyzer

/-- Outcome of the A-record resolution attempt in `check_dns_status`:
the `dns.resolver.resolve(domain, "A")` call either succeeds or raises one
of the exception classes the source catches.  The final clause of the
source catches `Exception`, i.e. every remaining error, as `dnsError`. -/
inductive DnsOutcome where
  | resolved
  | nxdomain
  | noAnswer
  | timeout
  | noNameservers
  | dnsError
  deriving DecidableEq, Repr

/-- Outcome of the CNAME resolution attempt in `_get_cname_record`:
either a CNAME answer string, an empty answer, or any of the caught
DNS exceptions (all mapped to `lookupFailed`). -/
inductive CnameOutcome where
  | found (record : String)
  | noRecord
  | lookupFailed
  deriving DecidableEq, Repr

/-- Oracle for the two DNS network calls made per domain. -/
structure DnsEnv where
  aLookup : String → DnsOutcome
  cnameLookup : String → CnameOutcome

/-- Embeds `DomainAnalyzer._get_cname_record`: returns the first CNAME
answer with trailing dots stripped, and `none` on no answer or on any
caught DNS exception. -/
def getCnameRecord (env : DnsEnv) (domain : String) : Option String :=
  match env.cnameLookup domain with
  | .found record => some (record.dropRightWhile (· = '.'))
  | .noRecord => none
  | .lookupFailed => none

/-- Embeds `DomainAnalyzer.check_dns_status`: classifies the A-record
resolution outcome into one of the five DNS status strings, and on
NXDOMAIN additionally attempts a best-effort CNAME lookup. -/
def checkDnsStatus (env : DnsEnv) (domain : String) : String × Option String :=
  match env.aLookup domain with
  | .resolved => ("NOERROR", none)
  | .nxdomain => ("NXDOMAIN", getCnameRecord env domain)
  | .noAnswer => ("NOERROR", none)
  | .timeout => ("TIMEOUT", none)
  | .noNameservers => ("SERVFAIL", none)
  | .dnsError => ("ERROR", none)

/-- The five DNS status strings the probe may return. -/
def dnsStatusValues : List String :=
  ["NOERROR", "NXDOMAIN", "TIMEOUT", "SERVFAIL", "ERROR"]

/-- The three WHOIS status strings. -/
def whoisStatusValues : List String :=
  ["registered", "available", "unknown"]

/-- Outcome of one `session.head` request in `check_http_status`: a numeric
status code, an SSL error, a `requests` request exception, or an
`OSError`/`ValueError`.  All three error arms of the source behave
identically (fall through from https to http, else return 0). -/
inductive HttpOutcome where
  | ok (code : Nat)
  | sslError
  | requestError
  | otherError
  deriving DecidableEq, Repr

/-- Oracle for HTTP HEAD attempts, per protocol string and domain. -/
structure HttpEnv where
  attempt : String → String → HttpOutcome

/-- Embeds `DomainAnalyzer.check_http_status`: empty domain gives 0;
otherwise try https then http, returning the first status code obtained,
and 0 if both attempts fail. -/
def checkHttpStatus (env : HttpEnv) (domain : String) : Nat :=
  if domain = "" then 0
  else
    match env.attempt "https" domain with
    | .ok code => code
    | _ =>
      match env.attempt "http" domain with
      | .ok code => code
      | _ => 0

/-- The fields of a parsed WHOIS response that the classification and the
detail extraction read.  Date fields are modelled post-collapse: the
source reduces a list-valued date to its first element before use, so a
field here is the single value (already rendered to a string) or `none`. -/
structure WhoisRecord where
  status : Option String
  creation_date : Option String
  expiration_date : Option String
  updated_date : Option String
  name_servers : List String
  deriving DecidableEq, Repr

/-- Outcome of the `whois.whois(domain)` call in `check_whois_status`:
a parsed record, a `WhoisDomainNotFoundError`, or any other exception
(the source's final clause catches `Exception`). -/
inductive WhoisOutcome where
  | ok (record : WhoisRecord)
  | notFound
  | failure
  deriving DecidableEq, Repr

/-- Oracle for the WHOIS lookup. -/
structure WhoisEnv where
  lookup : String → WhoisOutcome

/-- Embeds the detail-extraction block of `check_whois_status`: optional
dates become `registered_at`/`expiry_date`/`last_updated` entries and
nameservers are lowercased. -/
def extractWhoisDetails (w : WhoisRecord) : List (String × String) :=
  (match w.creation_date with
   | some d => [("registered_at", d)]
   | none => []) ++
  (match w.expiration_date with
   | some d => [("expiry_date", d)]
   | none => []) ++
  (match w.updated_date with
   | some d => [("last_updated", d)]
   | none => []) ++
  (if w.name_servers = [] then []
   else [("nameservers", String.intercalate "," (w.name_servers.map (·.toLower)))])

/-- Embeds the classification tail of `check_whois_status`:
`registered` when `w.status is not None or w.creation_date is not None`,
`available` when both are `None`, and a final (unreachable in two-valued
logic) `registered` arm, kept verbatim from the source. -/
def classifyWhoisRecord (w : WhoisRecord) : String :=
  if w.status.isSome || w.creation_date.isSome then "registered"
  else if w.status.isNone && w.creation_date.isNone then "available"
  else "registered"

/-- Embeds `DomainAnalyzer.check_whois_status`: empty domain gives
`unknown`; a parsed record is classified by its status/creation fields;
`WhoisDomainNotFoundError` gives `available`; any other exception gives
`unknown`. -/
def checkWhoisStatus (env : WhoisEnv) (domain : String) :
    String × List (String × String) :=
  if domain = "" then ("unknown", [])
  else
    match env.lookup domain with
    | .ok w => (classifyWhoisRecord w, extractWhoisDetails w)
    | .notFound => ("available", [])
    | .failure => ("unknown", [])

/-- Embeds `DomainAnalyzer._determine_availability_status`, the pure
reconciliation of the DNS status and the WHOIS status into the final
availability classification. -/
def determineAvailabilityStatus (dns_status whois_status : String) : String :=
  if dns_status = "NOERROR" then "registered"
  else if dns_status = "NXDOMAIN" then
    if whois_status = "registered" then "registered"
    else if whois_status = "available" then "available"
    else "unknown"
  else whois_status

/-- The Python exception classes relevant to the threaded collector:
the five classes its handler catches, and `otherException` for every
exception outside that tuple (which therefore escapes the collector). -/
inductive ExcClass where
  | requestException
  | dnsException
  | osError
  | valueError
  | typeError
  | otherException
  deriving DecidableEq, Repr

/-- An exception value escaping a unit of work: its class and message. -/
structure PyError where
  cls : ExcClass
  msg : String
  deriving DecidableEq, Repr

/-- Whether the threaded collector's handler catches this class
(`requests.exceptions.RequestException, dns.exception.DNSException,
OSError, ValueError, TypeError`). -/
def handledExcClass (c : ExcClass) : Bool :=
  match c with
  | .otherException => false
  | _ => true

/-- The per-domain analysis record built by `analyze_domain` (and by the
threaded collector's error arm).  `analyzed_at` is wall-clock metadata and
is omitted; `cname_record`, `details` and `error` model keys that are only
present on some records. -/
structure AnalysisResult where
  domain : String
  dns_status : String
  http_status : Nat
  whois_status : String
  cname_record : Option String := none
  details : List (String × String) := []
  error : Option String := none
  deriving DecidableEq, Repr

/-- Embeds `DomainAnalyzer.analyze_domain`: runs the three probes, then
reconciles DNS and WHOIS into the final `whois_status`.  The CNAME key is
only added when the string is truthy (non-empty), as in the source. -/
def analyzeDomain (dnsEnv : DnsEnv) (httpEnv : HttpEnv) (whoisEnv : WhoisEnv)
    (domain : String) : AnalysisResult :=
  let dc := checkDnsStatus dnsEnv domain
  let wd := checkWhoisStatus whoisEnv domain
  { domain := domain
    dns_status := dc.1
    http_status := checkHttpStatus httpEnv domain
    whois_status := determineAvailabilityStatus dc.1 wd.1
    cname_record :=
      match dc.2 with
      | some c => if c = "" then none else some c
      | none => none
    details := wd.2 }

/-- The synthetic record the threaded collector appends for a domain whose
unit of work raised a handled exception. -/
def syntheticErrorResult (domain : String) (e : PyError) : AnalysisResult :=
  { domain := domain
    dns_status := "ERROR"
    http_status := 0
    whois_status := "unknown"
    error := some e.msg }

/-- Embeds `DomainAnalyzer._analyze_domains_sequential`: one unit of work
per domain in input order, appending each result.  The loop has no
exception handler, so an exception escaping a unit of work propagates and
no result list is produced. -/
def analyzeDomainsSequential (work : String → Except PyError AnalysisResult)
    (domains : List String) : Except PyError (List AnalysisResult) :=
  match domains with
  | [] => .ok []
  | d :: rest =>
    match work d with
    | .ok r => (analyzeDomainsSequential work rest).map (fun rs => r :: rs)
    | .error e => .error e

/-- Embeds the `as_completed` loop of `_analyze_domains_threaded`:
futures are consumed in completion order (`order`); a successful unit of
work appends its result; an exception of a handled class appends a
synthetic error record; an exception of any other class escapes the loop
and the whole call raises. -/
def collectCompleted (work : String → Except PyError AnalysisResult)
    (order : List String) : Except PyError (List AnalysisResult) :=
  match order with
  | [] => .ok []
  | d :: rest =>
    match work d with
    | .ok r => (collectCompleted work rest).map (fun rs => r :: rs)
    | .error e =>
      if handledExcClass e.cls then
        (collectCompleted work rest).map (fun rs => syntheticErrorResult d e :: rs)
      else .error e

/-- The comparison used by the final `results.sort(key=lambda x:
x["domain"])`. -/
def resultLe (a b : AnalysisResult) : Bool := decide (a.domain ≤ b.domain)

/-- Embeds `DomainAnalyzer._analyze_domains_threaded`: collect results in
completion order, then sort by domain name. -/
def analyzeDomainsThreaded (work : String → Except PyError AnalysisResult)
    (order : List String) : Except PyError (List AnalysisResult) :=
  (collectCompleted work order).map (fun rs => rs.mergeSort resultLe)

/-- One entry of the pixel-data JSON's `domains` array; only the `domain`
field is read by the extractor. -/
structure DomainEntry where
  domain : String
  deriving DecidableEq, Repr

/-- The parsed pixel-data JSON document. -/
structure PixelData where
  domains : List DomainEntry
  deriving DecidableEq, Repr

/-- Outcome of opening and JSON-decoding the input file in
`extract_domains_from_json`: parsed data, or one of the three exception
classes the source catches (`IOError`, `json.JSONDecodeError`,
`KeyError`). -/
inductive ReadOutcome where
  | ok (data : PixelData)
  | ioError (msg : String)
  | jsonDecodeError (msg : String)
  | keyError (msg : String)
  deriving DecidableEq, Repr

/-- String comparison as a Bool, used to model Python's `sorted`. -/
def stringLe (a b : String) : Bool := decide (a ≤ b)

/-- Models Python str.strip with no argument: removes leading and
trailing whitespace characters. -/
def pyStrip (s : String) : String :=
  ⟨((s.data.dropWhile Char.isWhitespace).reverse.dropWhile
      Char.isWhitespace).reverse⟩

/-- Models `sorted(list(set(l)))`: the unique elements in ascending
order. -/
def sortedUnique (l : List String) : List String :=
  l.dedup.mergeSort stringLe

/-- Embeds `DomainAnalyzer.extract_domains_from_json`: on parsed data,
the stripped non-empty `domain` fields, deduplicated and sorted; on any
caught read/parse error, the error is logged and the empty list is
returned. -/
def extractDomainsFromJson (file : ReadOutcome) : List String :=
  match file with
  | .ok data =>
    sortedUnique ((data.domains.map (fun e => pyStrip e.domain)).filter
      (fun s => s ≠ ""))
  | .ioError _ => []
  | .jsonDecodeError _ => []
  | .keyError _ => []

/-- Embeds `DomainAnalyzer.analyze_domains_from_json`: extract the domain
list, then run the threaded or the sequential analyzer.  `schedule` gives
the completion order of the submitted futures (intended: a permutation of
the submitted domains). -/
def analyzeDomainsFromJson (work : String → Except PyError AnalysisResult)
    (schedule : List String → List String) (file : ReadOutcome)
    (useThreading : Bool) : Except PyError (List AnalysisResult) :=
  let domains := extractDomainsFromJson file
  if useThreading then analyzeDomainsThreaded work (schedule domains)
  else analyzeDomainsSequential work domains

/-- Models `d[k] = d.get(k, 0) + 1` on an insertion-ordered dict
represented as an association list. -/
def bump (m : List (String × Nat)) (k : String) : List (String × Nat) :=
  match m with
  | [] => [(k, 1)]
  | (k2, v) :: rest =>
    if k2 = k then (k2, v + 1) :: rest else (k2, v) :: bump rest k

/-- The HTTP status class assigned by `_generate_summary`. -/
def httpStatusKey (code : Nat) : String :=
  if code = 0 then "unreachable"
  else if 200 ≤ code ∧ code < 300 then "success"
  else if 300 ≤ code ∧ code < 400 then "redirect"
  else if 400 ≤ code ∧ code < 500 then "client_error"
  else if 500 ≤ code ∧ code < 600 then "server_error"
  else "other"

/-- The three histograms built by `_generate_summary`. -/
structure Summary where
  dns_status_distribution : List (String × Nat)
  http_status_distribution : List (String × Nat)
  whois_status_distribution : List (String × Nat)
  deriving DecidableEq, Repr

/-- One iteration of the counting loop of `_generate_summary`. -/
def summaryStep (acc : Summary) (r : AnalysisResult) : Summary :=
  { dns_status_distribution := bump acc.dns_status_distribution r.dns_status
    http_status_distribution :=
      bump acc.http_status_distribution (httpStatusKey r.http_status)
    whois_status_distribution := bump acc.whois_status_distribution r.whois_status }

/-- Embeds `DomainAnalyzer._generate_summary`: the empty result list
yields the empty dict (`none`, no distribution keys at all); otherwise
the three histograms are built by a single counting pass. -/
def generateSummary (results : List AnalysisResult) : Option Summary :=
  if results = [] then none
  else some (results.foldl summaryStep ⟨[], [], []⟩)

/-- The persisted report of `save_domain_report` (its `generated_at`
timestamp is wall-clock metadata and omitted). -/
structure Report where
  total_domains : Nat
  description : String
  summary : Option Summary
  domains : List AnalysisResult
  deriving DecidableEq, Repr

/-- Embeds the report construction of `save_domain_report`. -/
def buildDomainReport (results : List AnalysisResult) : Report :=
  { total_domains := results.length
    description := "Domain analysis report from Million Dollar Homepage pixel data"
    summary := generateSummary results
    domains := results }

/-- Total of one histogram: the sum of its counts. -/
def distTotal (m : List (String × Nat)) : Nat :=
  (m.map (fun p => p.2)).sum

/-- True when the string has no whitespace character. -/
def isWhitespaceFree (s : String) : Bool :=
  s.data.all (fun c => !c.isWhitespace)

/-- Whether the first list begins with the second one. -/
def startsWithSeq : List Char → List Char → Bool
  | _, [] => true
  | [], _ :: _ => false
  | a :: as, b :: bs => a == b && startsWithSeq as bs

/-- Whether the pattern occurs as a contiguous run anywhere in the
list. -/
def containsSeq : List Char → List Char → Bool
  | [], pat => startsWithSeq [] pat
  | a :: rest, pat => startsWithSeq (a :: rest) pat || containsSeq rest pat

/-- Modelled from the spec: the Domain normalization invariant of the
data model (lowercase, no scheme marker, no leading www. run, at least
one dot, non-empty, whitespace-free), stated as a predicate to compare
with what the extractor actually returns. -/
def specNormalizedDomain (s : String) : Bool :=
  !(s.data.isEmpty) && s.data.map Char.toLower == s.data &&
    !(startsWithSeq s.data ['w', 'w', 'w', '.']) &&
    !(containsSeq s.data [':', '/', '/']) &&
    s.data.contains '.' && isWhitespaceFree s

/-- The six HTTP class keys `_generate_summary` can emit. -/
def httpClassValues : List String :=
  ["success", "redirect", "client_error", "server_error", "unreachable", "other"]

/-- A fixed successful analysis record for a domain, used to instantiate
resolver theorems on concrete inputs. -/
def okResult (d : String) : AnalysisResult :=
  { domain := d
    dns_status := "NOERROR"
    http_status := 200
    whois_status := "registered" }

/-- A unit of work that always succeeds with `okResult`. -/
def okWork : String → Except PyError AnalysisResult :=
  fun d => .ok (okResult d)

/-- A unit of work that always raises an `OSError`. -/
def failingWork : String → Except PyError AnalysisResult :=
  fun _ => .error { cls := .osError, msg := "boom" }

/-- A unit of work that raises an `OSError` for one domain and succeeds
for every other. -/
def mixedWork : String → Except PyError AnalysisResult :=
  fun d =>
    if d = "b.test" then .error { cls := .osError, msg := "socket closed" }
    else .ok (okResult d)

/-- A record whose HTTP status code falls outside 0 and the standard
200-599 bands. -/
def oddResult : AnalysisResult :=
  { domain := "x.test"
    dns_status := "NOERROR"
    http_status := 999
    whois_status := "registered" }

end MdhAnalyzer

namespace MdhAnalyzer

/-- C1: the reconciliation function is total and deterministic over the
two status enums: NOERROR forces `registered` whatever WHOIS said;
NXDOMAIN defers to the WHOIS value; every other DNS status passes the
WHOIS value through unchanged. -/
theorem reconcile_truth_table :
    (∀ w, w ∈ whoisStatusValues →
      determineAvailabilityStatus "NOERROR" w = "registered") ∧
    determineAvailabilityStatus "NXDOMAIN" "registered" = "registered" ∧
    determineAvailabilityStatus "NXDOMAIN" "available" = "available" ∧
    determineAvailabilityStatus "NXDOMAIN" "unknown" = "unknown" ∧
    (∀ d, d ∈ ["TIMEOUT", "SERVFAIL", "ERROR"] → ∀ w, w ∈ whoisStatusValues →
      determineAvailabilityStatus d w = w) := by
  refine ⟨?_, by decide, by decide, by decide, ?_⟩
  · intro w hw
    simp only [whoisStatusValues, List.mem_cons, List.mem_singleton,
      List.not_mem_nil, or_false] at hw
    rcases hw with h | h | h <;> subst h <;> decide
  · intro d hd w hw
    simp only [List.mem_cons, List.mem_singleton, List.not_mem_nil,
      or_false] at hd
    simp only [whoisStatusValues, List.mem_cons, List.mem_singleton,
      List.not_mem_nil, or_false] at hw
    rcases hd with h | h | h <;> subst h <;>
      (rcases hw with h2 | h2 | h2 <;> subst h2 <;> decide)

/-- Witness for C1 at concrete enum values. -/
theorem reconcile_truth_table_witness :
    determineAvailabilityStatus "NOERROR" "available" = "registered" ∧
    determineAvailabilityStatus "TIMEOUT" "available" = "available" :=
  ⟨(reconcile_truth_table).1 "available" (by decide),
   (reconcile_truth_table).2.2.2.2 "TIMEOUT" (by decide) "available" (by decide)⟩

/-- C5: for every environment and domain string, the DNS probe yields one
of the five status strings (its final clause absorbs every exception, so
it never raises in the embedding); a name that resolves but has no
address record yields NOERROR; and the CNAME component is non-`none` only
on NXDOMAIN. -/
theorem dns_probe_total (env : DnsEnv) (domain : String) :
    (checkDnsStatus env domain).1 ∈ dnsStatusValues ∧
    (env.aLookup domain = .noAnswer → (checkDnsStatus env domain).1 = "NOERROR") ∧
    ((checkDnsStatus env domain).2 ≠ none →
      (checkDnsStatus env domain).1 = "NXDOMAIN") := by
  unfold checkDnsStatus
  rcases h : env.aLookup domain with _ | _ | _ | _ | _ | _ <;>
    simp [dnsStatusValues]

/-- Witness for C5 at a concrete environment and domain. -/
theorem dns_probe_total_witness :
    ((checkDnsStatus ⟨fun _ => .noAnswer, fun _ => .lookupFailed⟩ "a.test").1 ∈
        dnsStatusValues ∧
      ((⟨fun _ => .noAnswer, fun _ => .lookupFailed⟩ : DnsEnv).aLookup "a.test" =
          .noAnswer →
        (checkDnsStatus ⟨fun _ => .noAnswer, fun _ => .lookupFailed⟩ "a.test").1 =
          "NOERROR") ∧
      ((checkDnsStatus ⟨fun _ => .noAnswer, fun _ => .lookupFailed⟩ "a.test").2 ≠
          none →
        (checkDnsStatus ⟨fun _ => .noAnswer, fun _ => .lookupFailed⟩ "a.test").1 =
          "NXDOMAIN")) :=
  dns_probe_total ⟨fun _ => .noAnswer, fun _ => .lookupFailed⟩ "a.test"

/-- C6: for every non-empty domain, the WHOIS probe classifies the domain
as `registered` exactly when the parsed record has a status or a creation
date present, as `available` exactly when both are absent, as `available`
when the registry reports the name unknown (`WhoisDomainNotFoundError`),
and as `unknown` on every other lookup failure; the embedding is total,
reflecting the catch-all exception clause of the source. -/
theorem whois_probe_classification (env : WhoisEnv) (domain : String)
    (hne : domain ≠ "") :
    (∀ w, env.lookup domain = .ok w →
      (((checkWhoisStatus env domain).1 = "registered" ↔
          (w.status.isSome ∨ w.creation_date.isSome)) ∧
        ((checkWhoisStatus env domain).1 = "available" ↔
          (w.status = none ∧ w.creation_date = none)))) ∧
    (env.lookup domain = .notFound →
      (checkWhoisStatus env domain).1 = "available") ∧
    (env.lookup domain = .failure →
      (checkWhoisStatus env domain).1 = "unknown") := by
  unfold checkWhoisStatus
  rw [if_neg hne]
  refine ⟨?_, ?_, ?_⟩
  · intro w hw
    rw [hw]
    unfold classifyWhoisRecord
    rcases hs : w.status with _ | s <;> rcases hc : w.creation_date with _ | c <;>
      simp [hs, hc]
  · intro h
    rw [h]
  · intro h
    rw [h]

/-- Witness for C6: a record with a creation date but no status is
classified registered, and a lookup failure is classified unknown. -/
theorem whois_probe_classification_witness :
    ("b.test" ≠ "" ∧
      (checkWhoisStatus ⟨fun _ => .ok ⟨none, some "2004-01-01", none, none, []⟩⟩
          "b.test").1 = "registered") ∧
    (checkWhoisStatus ⟨fun _ => .failure⟩ "b.test").1 = "unknown" := by
  have h1 := whois_probe_classification
    ⟨fun _ => .ok ⟨none, some "2004-01-01", none, none, []⟩⟩ "b.test" (by decide)
  have h2 := whois_probe_classification ⟨fun _ => .failure⟩ "b.test" (by decide)
  refine ⟨⟨by decide, ?_⟩, h2.2.2 rfl⟩
  exact ((h1.1 ⟨none, some "2004-01-01", none, none, []⟩ rfl).1).2 (by simp)

theorem stringLe_trans (a b c : String) (hab : stringLe a b) (hbc : stringLe b c) :
    stringLe a c := by
  simp only [stringLe, decide_eq_true_eq] at *
  exact le_trans hab hbc

theorem stringLe_total (a b : String) : stringLe a b || stringLe b a := by
  simp only [stringLe, Bool.or_eq_true, decide_eq_true_eq]
  exact le_total a b

theorem resultLe_trans (a b c : AnalysisResult) (hab : resultLe a b)
    (hbc : resultLe b c) : resultLe a c := by
  simp only [resultLe, decide_eq_true_eq] at *
  exact le_trans hab hbc

theorem resultLe_total (a b : AnalysisResult) : resultLe a b || resultLe b a := by
  simp only [resultLe, Bool.or_eq_true, decide_eq_true_eq]
  exact le_total a.domain b.domain

theorem sequential_map (f : String → AnalysisResult) (l : List String) :
    analyzeDomainsSequential (fun d => .ok (f d)) l = .ok (l.map f) := by
  induction l with
  | nil => rfl
  | cons d rest ih => simp [analyzeDomainsSequential, ih, Except.map]

theorem collectCompleted_map (f : String → AnalysisResult) (l : List String) :
    collectCompleted (fun d => .ok (f d)) l = .ok (l.map f) := by
  induction l with
  | nil => rfl
  | cons d rest ih => simp [collectCompleted, ih, Except.map]

theorem sequential_ok_forall₂ (work : String → Except PyError AnalysisResult) :
    ∀ (l : List String), (∀ d ∈ l, ∃ r, work d = .ok r) →
    ∃ rs, analyzeDomainsSequential work l = .ok rs ∧
      List.Forall₂ (fun d r => work d = .ok r) l rs := by
  intro l
  induction l with
  | nil => exact fun _ => ⟨[], rfl, List.Forall₂.nil⟩
  | cons d rest ih =>
    intro h
    obtain ⟨r, hr⟩ := h d (List.mem_cons_self d rest)
    obtain ⟨rs, hrs, hf⟩ := ih (fun d2 hd2 => h d2 (List.mem_cons_of_mem d hd2))
    refine ⟨r :: rs, ?_, List.Forall₂.cons hr hf⟩
    simp [analyzeDomainsSequential, hr, hrs, Except.map]

theorem collectCompleted_ok_of_handled
    (work : String → Except PyError AnalysisResult) :
    ∀ (l : List String),
    (∀ d ∈ l, ∀ e, work d = .error e → handledExcClass e.cls = true) →
    ∃ rs, collectCompleted work l = .ok rs ∧
      List.Forall₂ (fun d r => work d = .ok r ∨
        ∃ e, work d = .error e ∧ r = syntheticErrorResult d e) l rs := by
  intro l
  induction l with
  | nil => exact fun _ => ⟨[], rfl, List.Forall₂.nil⟩
  | cons d rest ih =>
    intro h
    obtain ⟨rs, hrs, hf⟩ :=
      ih (fun d2 hd2 e he => h d2 (List.mem_cons_of_mem d hd2) e he)
    cases hw : work d with
    | ok r =>
      refine ⟨r :: rs, ?_, List.Forall₂.cons (Or.inl hw) hf⟩
      simp [collectCompleted, hw, hrs, Except.map]
    | error e =>
      have hh := h d (List.mem_cons_self d rest) e hw
      refine ⟨syntheticErrorResult d e :: rs, ?_,
        List.Forall₂.cons (Or.inr ⟨e, hw, rfl⟩) hf⟩
      simp [collectCompleted, hw, hh, hrs, Except.map]

theorem forall₂_result_domains (work : String → Except PyError AnalysisResult)
    (hdom : ∀ d r, work d = .ok r → r.domain = d)
    {l : List String} {rs : List AnalysisResult}
    (h : List.Forall₂ (fun d r => work d = .ok r ∨
      ∃ e, work d = .error e ∧ r = syntheticErrorResult d e) l rs) :
    rs.map (fun r => r.domain) = l := by
  induction h with
  | nil => rfl
  | @cons d r l2 rs2 hdr hrest ih =>
    simp only [List.map_cons, ih, List.cons.injEq, and_true]
    rcases hdr with hok | ⟨e, _, hsyn⟩
    · exact hdom d r hok
    · rw [hsyn]; rfl

theorem forall₂_mem_left {α β : Type} {R : α → β → Prop} :
    ∀ {l : List α} {rs : List β},
    List.Forall₂ R l rs → ∀ d ∈ l, ∃ r ∈ rs, R d r := by
  intro l rs h
  induction h with
  | nil => intro d hd; cases hd
  | @cons d0 r0 l2 rs2 hdr hrest ih =>
    intro d hd
    rcases List.mem_cons.mp hd with h1 | h2
    · exact ⟨r0, List.mem_cons_self r0 rs2, h1 ▸ hdr⟩
    · obtain ⟨r, hr, hR⟩ := ih d h2
      exact ⟨r, List.mem_cons_of_mem r0 hr, hR⟩

/-- C4: given one fixed assignment of probe outcomes per domain (a
function from domain to its analysis record), the sequential and the
threaded analyzers agree: for every completion order that is a
permutation of the input, the threaded result list is a permutation of
the sequential one, so both modes give the same domain-to-result set. -/
theorem modes_equivalent (f : String → AnalysisResult)
    (domains order : List String) (hperm : order.Perm domains) :
    ∃ rs, analyzeDomainsThreaded (fun d => .ok (f d)) order = .ok rs ∧
      analyzeDomainsSequential (fun d => .ok (f d)) domains = .ok (domains.map f) ∧
      rs.Perm (domains.map f) ∧
      ∀ r, r ∈ rs ↔ r ∈ domains.map f := by
  refine ⟨(order.map f).mergeSort resultLe, ?_, sequential_map f domains, ?_, ?_⟩
  · simp [analyzeDomainsThreaded, collectCompleted_map, Except.map]
  · exact (List.mergeSort_perm (order.map f) resultLe).trans (hperm.map f)
  · intro r
    exact ((List.mergeSort_perm (order.map f) resultLe).trans (hperm.map f)).mem_iff

/-- Witness for C4 at a concrete input and completion order. -/
theorem modes_equivalent_witness :
    (["b.test", "a.test"] : List String).Perm ["a.test", "b.test"] ∧
    ∃ rs, analyzeDomainsThreaded (fun d => .ok (okResult d)) ["b.test", "a.test"] =
        .ok rs ∧
      analyzeDomainsSequential (fun d => .ok (okResult d)) ["a.test", "b.test"] =
        .ok (["a.test", "b.test"].map okResult) ∧
      rs.Perm (["a.test", "b.test"].map okResult) ∧
      ∀ r, r ∈ rs ↔ r ∈ ["a.test", "b.test"].map okResult :=
  ⟨List.Perm.swap "a.test" "b.test" [],
   modes_equivalent okResult ["a.test", "b.test"] ["b.test", "a.test"]
     (List.Perm.swap "a.test" "b.test" [])⟩

theorem mixedWork_domain (d : String) (r : AnalysisResult)
    (h : mixedWork d = .ok r) : r.domain = d := by
  unfold mixedWork at h
  split at h
  · exact Except.noConfusion h
  · have h2 := Except.ok.inj h
    subst h2
    rfl

theorem mixedWork_handled (d : String) (e : PyError)
    (h : mixedWork d = .error e) : handledExcClass e.cls = true := by
  unfold mixedWork at h
  split at h
  · have h2 := Except.error.inj h
    rw [← h2]
    rfl
  · exact Except.noConfusion h

theorem mixedWork_fails : mixedWork "b.test" =
    .error { cls := .osError, msg := "socket closed" } := rfl

/-- C2 (amended): provided every work-unit failure is of a handled
exception class and results are tagged with their own domain, the
threaded analyzer returns a result list sorted ascending by domain whose
domains are exactly the input domains (one result each, none dropped,
even for domains whose unit of work raised), duplicate-free whenever the
input is; the sequential analyzer, which neither sorts nor handles
escaping exceptions, returns one result per domain in input order when no
unit raises, and its output is sorted only when the input already is. -/
theorem resolver_output_sorted_unique
    (work : String → Except PyError AnalysisResult)
    (hdom : ∀ d r, work d = .ok r → r.domain = d)
    (domains order : List String) (hperm : order.Perm domains)
    (hhand : ∀ d ∈ domains, ∀ e, work d = .error e →
      handledExcClass e.cls = true) :
    (∃ rs, analyzeDomainsThreaded work order = .ok rs ∧
      List.Pairwise (fun a b : AnalysisResult => a.domain ≤ b.domain) rs ∧
      (rs.map (fun r => r.domain)).Perm domains ∧
      (domains.Nodup → (rs.map (fun r => r.domain)).Nodup)) ∧
    ((∀ d ∈ domains, ∃ r, work d = .ok r) →
      ∃ rs, analyzeDomainsSequential work domains = .ok rs ∧
        rs.map (fun r => r.domain) = domains ∧
        (List.Pairwise (fun a b : String => a ≤ b) domains →
          List.Pairwise (fun a b : AnalysisResult => a.domain ≤ b.domain) rs)) := by
  constructor
  · obtain ⟨rs0, hrs0, hf⟩ := collectCompleted_ok_of_handled work order
      (fun d hd e he => hhand d (hperm.subset hd) e he)
    have hmap : rs0.map (fun r => r.domain) = order :=
      forall₂_result_domains work hdom hf
    have hp : ((rs0.mergeSort resultLe).map (fun r => r.domain)).Perm domains := by
      have h2 := (List.mergeSort_perm rs0 resultLe).map (fun r => r.domain)
      rw [hmap] at h2
      exact h2.trans hperm
    refine ⟨rs0.mergeSort resultLe, ?_, ?_, hp, fun hnd => hp.symm.nodup hnd⟩
    · simp [analyzeDomainsThreaded, hrs0, Except.map]
    · exact (List.sorted_mergeSort resultLe_trans resultLe_total rs0).imp
        (fun h => by simpa [resultLe] using h)
  · intro htot
    obtain ⟨rs, hrs, hf⟩ := sequential_ok_forall₂ work domains htot
    have hmap : rs.map (fun r => r.domain) = domains :=
      forall₂_result_domains work hdom (hf.imp (fun _ _ h => Or.inl h))
    refine ⟨rs, hrs, hmap, ?_⟩
    intro hsorted
    rw [← hmap] at hsorted
    exact List.pairwise_map.mp hsorted

/-- C2 counterexample: the claim fails for the sequential mode.  With
unsorted input and no failures at all, the sequential analyzer returns
results in input order, which is not sorted by domain; and with one
raising unit of work, the sequential analyzer raises instead of
returning any result list, so the domain is dropped. -/
theorem resolver_claim_counterexample :
    analyzeDomainsSequential okWork ["b.test", "a.test"] =
      .ok [okResult "b.test", okResult "a.test"] ∧
    resultLe (okResult "b.test") (okResult "a.test") = false ∧
    analyzeDomainsSequential mixedWork ["a.test", "b.test"] =
      .error { cls := .osError, msg := "socket closed" } := by
  refine ⟨rfl, ?_, rfl⟩
  simp only [resultLe, okResult]
  rw [decide_eq_false_iff_not, String.le_iff_toList_le]
  decide

/-- Witness for C2 (amended) at a concrete work unit, input and
completion order, one domain of which fails with a handled `OSError`. -/
theorem resolver_output_sorted_unique_witness :
    (∃ rs, analyzeDomainsThreaded mixedWork ["b.test", "a.test"] = .ok rs ∧
      List.Pairwise (fun a b : AnalysisResult => a.domain ≤ b.domain) rs ∧
      (rs.map (fun r => r.domain)).Perm ["a.test", "b.test"] ∧
      ((["a.test", "b.test"] : List String).Nodup →
        (rs.map (fun r => r.domain)).Nodup)) ∧
    ((∀ d ∈ (["a.test", "b.test"] : List String), ∃ r, mixedWork d = .ok r) →
      ∃ rs, analyzeDomainsSequential mixedWork ["a.test", "b.test"] = .ok rs ∧
        rs.map (fun r => r.domain) = ["a.test", "b.test"] ∧
        (List.Pairwise (fun a b : String => a ≤ b) ["a.test", "b.test"] →
          List.Pairwise (fun a b : AnalysisResult => a.domain ≤ b.domain) rs)) :=
  resolver_output_sorted_unique mixedWork mixedWork_domain
    ["a.test", "b.test"] ["b.test", "a.test"]
    (List.Perm.swap "a.test" "b.test" [])
    (fun d _ e he => mixedWork_handled d e he)

/-- C3 (amended): in threaded mode, a domain whose unit of work raises an
exception of one of the handled classes gets a synthetic record with
dns_status ERROR, http_status 0, whois_status unknown and the error
message attached; the domain is not dropped and every other domain still
receives a result. -/
theorem threaded_synthetic_record
    (work : String → Except PyError AnalysisResult)
    (hdom : ∀ d2 r, work d2 = .ok r → r.domain = d2)
    (domains order : List String) (hperm : order.Perm domains)
    (hhand : ∀ d2 ∈ domains, ∀ e2, work d2 = .error e2 →
      handledExcClass e2.cls = true)
    (d : String) (e : PyError) (hd : d ∈ domains) (he : work d = .error e) :
    ∃ rs, analyzeDomainsThreaded work order = .ok rs ∧
      syntheticErrorResult d e ∈ rs ∧
      (syntheticErrorResult d e).dns_status = "ERROR" ∧
      (syntheticErrorResult d e).http_status = 0 ∧
      (syntheticErrorResult d e).whois_status = "unknown" ∧
      (syntheticErrorResult d e).error = some e.msg ∧
      ∀ d2 ∈ domains, ∃ r ∈ rs, r.domain = d2 := by
  obtain ⟨rs0, hrs0, hf⟩ := collectCompleted_ok_of_handled work order
    (fun d2 hd2 e2 he2 => hhand d2 (hperm.subset hd2) e2 he2)
  refine ⟨rs0.mergeSort resultLe, ?_, ?_, rfl, rfl, rfl, rfl, ?_⟩
  · simp [analyzeDomainsThreaded, hrs0, Except.map]
  · obtain ⟨r, hr, hR⟩ := forall₂_mem_left hf d (hperm.mem_iff.mpr hd)
    rcases hR with hok | ⟨e2, he2, hsyn⟩
    · exact Except.noConfusion (he.symm.trans hok)
    · have h3 : e2 = e := Except.error.inj (he2.symm.trans he)
      rw [h3] at hsyn
      exact List.mem_mergeSort.mpr (hsyn ▸ hr)
  · intro d2 hd2
    obtain ⟨r, hr, hR⟩ := forall₂_mem_left hf d2 (hperm.mem_iff.mpr hd2)
    refine ⟨r, List.mem_mergeSort.mpr hr, ?_⟩
    rcases hR with hok | ⟨e2, _, hsyn⟩
    · exact hdom d2 r hok
    · rw [hsyn]; rfl

/-- C3 counterexample: the sequential analyzer has no per-domain
exception boundary; an escaping work-unit exception aborts the whole
call, so no synthetic record is recorded and no result list is
returned. -/
theorem synthetic_record_counterexample :
    analyzeDomainsSequential failingWork ["a.test"] =
      .error { cls := .osError, msg := "boom" } := rfl

/-- Witness for C3 (amended) at a concrete failing domain in threaded
mode. -/
theorem threaded_synthetic_record_witness :
    ∃ rs, analyzeDomainsThreaded mixedWork ["b.test", "a.test"] = .ok rs ∧
      syntheticErrorResult "b.test" { cls := .osError, msg := "socket closed" } ∈
        rs ∧
      (syntheticErrorResult "b.test"
        { cls := .osError, msg := "socket closed" }).dns_status = "ERROR" ∧
      (syntheticErrorResult "b.test"
        { cls := .osError, msg := "socket closed" }).http_status = 0 ∧
      (syntheticErrorResult "b.test"
        { cls := .osError, msg := "socket closed" }).whois_status = "unknown" ∧
      (syntheticErrorResult "b.test"
        { cls := .osError, msg := "socket closed" }).error =
        some "socket closed" ∧
      ∀ d2 ∈ (["a.test", "b.test"] : List String), ∃ r ∈ rs, r.domain = d2 :=
  threaded_synthetic_record mixedWork mixedWork_domain
    ["a.test", "b.test"] ["b.test", "a.test"]
    (List.Perm.swap "a.test" "b.test" [])
    (fun d2 _ e2 he2 => mixedWork_handled d2 e2 he2)
    "b.test" { cls := .osError, msg := "socket closed" }
    (by decide) mixedWork_fails

theorem distTotal_cons (p : String × Nat) (m : List (String × Nat)) :
    distTotal (p :: m) = p.2 + distTotal m := by
  simp [distTotal]

theorem distTotal_bump (m : List (String × Nat)) (k : String) :
    distTotal (bump m k) = distTotal m + 1 := by
  induction m with
  | nil => rfl
  | cons p rest ih =>
    obtain ⟨k2, v⟩ := p
    by_cases h : k2 = k
    · simp only [bump, if_pos h, distTotal_cons]
      omega
    · simp only [bump, if_neg h, distTotal_cons, ih]
      omega

theorem summaryStep_dns (acc : Summary) (r : AnalysisResult) :
    (summaryStep acc r).dns_status_distribution =
      bump acc.dns_status_distribution r.dns_status := rfl

theorem summaryStep_http (acc : Summary) (r : AnalysisResult) :
    (summaryStep acc r).http_status_distribution =
      bump acc.http_status_distribution (httpStatusKey r.http_status) := rfl

theorem summaryStep_whois (acc : Summary) (r : AnalysisResult) :
    (summaryStep acc r).whois_status_distribution =
      bump acc.whois_status_distribution r.whois_status := rfl

theorem summary_foldl_totals (results : List AnalysisResult) :
    ∀ acc : Summary,
      distTotal (results.foldl summaryStep acc).dns_status_distribution =
        distTotal acc.dns_status_distribution + results.length ∧
      distTotal (results.foldl summaryStep acc).http_status_distribution =
        distTotal acc.http_status_distribution + results.length ∧
      distTotal (results.foldl summaryStep acc).whois_status_distribution =
        distTotal acc.whois_status_distribution + results.length := by
  induction results with
  | nil => intro acc; simp
  | cons r rest ih =>
    intro acc
    obtain ⟨h1, h2, h3⟩ := ih (summaryStep acc r)
    simp only [List.foldl_cons, List.length_cons]
    rw [h1, h2, h3, summaryStep_dns, summaryStep_http, summaryStep_whois,
      distTotal_bump, distTotal_bump, distTotal_bump]
    omega

theorem httpStatusKey_mem (code : Nat) : httpStatusKey code ∈ httpClassValues := by
  unfold httpStatusKey httpClassValues
  split_ifs <;> simp

theorem bump_keys_subset (m : List (String × Nat)) (k : String) (K : List String)
    (hk : k ∈ K) (hm : ∀ p ∈ m, p.1 ∈ K) : ∀ p ∈ bump m k, p.1 ∈ K := by
  induction m with
  | nil =>
    intro p hp
    simp only [bump, List.mem_singleton] at hp
    rw [hp]
    exact hk
  | cons q rest ih =>
    intro p hp
    obtain ⟨k2, v⟩ := q
    simp only [bump] at hp
    by_cases h : k2 = k
    · rw [if_pos h] at hp
      rcases List.mem_cons.mp hp with h1 | h1
      · rw [h1]
        exact h ▸ hk
      · exact hm p (List.mem_cons_of_mem _ h1)
    · rw [if_neg h] at hp
      rcases List.mem_cons.mp hp with h1 | h1
      · rw [h1]
        exact hm (k2, v) (List.mem_cons_self _ _)
      · exact ih (fun p2 hp2 => hm p2 (List.mem_cons_of_mem _ hp2)) p h1

theorem summary_foldl_http_keys (results : List AnalysisResult) :
    ∀ acc : Summary,
      (∀ p ∈ acc.http_status_distribution, p.1 ∈ httpClassValues) →
      ∀ p ∈ (results.foldl summaryStep acc).http_status_distribution,
        p.1 ∈ httpClassValues := by
  induction results with
  | nil => exact fun acc h => h
  | cons r rest ih =>
    intro acc h
    simp only [List.foldl_cons]
    refine ih (summaryStep acc r) ?_
    rw [summaryStep_http]
    exact bump_keys_subset acc.http_status_distribution
      (httpStatusKey r.http_status) httpClassValues
      (httpStatusKey_mem r.http_status) h

/-- C7 (amended): for every non-empty result list the generated summary
has all three distributions summing to the number of results, and every
key of the HTTP distribution is one of the six classes the code can emit:
success, redirect, client_error, server_error, unreachable, or other
(the catch-all for status codes outside 0 and 200-599). -/
theorem summary_histograms (results : List AnalysisResult)
    (hne : results ≠ []) :
    ∃ s, generateSummary results = some s ∧
      distTotal s.dns_status_distribution = results.length ∧
      distTotal s.http_status_distribution = results.length ∧
      distTotal s.whois_status_distribution = results.length ∧
      ∀ p ∈ s.http_status_distribution, p.1 ∈ httpClassValues := by
  refine ⟨results.foldl summaryStep ⟨[], [], []⟩, ?_, ?_, ?_, ?_, ?_⟩
  · simp [generateSummary, hne]
  · simpa [distTotal] using (summary_foldl_totals results ⟨[], [], []⟩).1
  · simpa [distTotal] using (summary_foldl_totals results ⟨[], [], []⟩).2.1
  · simpa [distTotal] using (summary_foldl_totals results ⟨[], [], []⟩).2.2
  · refine summary_foldl_http_keys results ⟨[], [], []⟩ ?_
    intro p hp
    cases hp

/-- C7 counterexample: a result whose HTTP status code is 999 is counted
under the sixth class key, which is not one of the five classes the
claim lists. -/
theorem summary_http_class_counterexample :
    generateSummary [oddResult] =
      some { dns_status_distribution := [("NOERROR", 1)]
             http_status_distribution := [("other", 1)]
             whois_status_distribution := [("registered", 1)] } ∧
    ("other" : String) ∉
      ["success", "redirect", "client_error", "server_error", "unreachable"] := by
  refine ⟨rfl, by decide⟩

/-- Witness for C7 (amended) at a concrete one-element result list. -/
theorem summary_histograms_witness :
    ∃ s, generateSummary [okResult "a.test"] = some s ∧
      distTotal s.dns_status_distribution = [okResult "a.test"].length ∧
      distTotal s.http_status_distribution = [okResult "a.test"].length ∧
      distTotal s.whois_status_distribution = [okResult "a.test"].length ∧
      ∀ p ∈ s.http_status_distribution, p.1 ∈ httpClassValues :=
  summary_histograms [okResult "a.test"] (by simp)

/-- C8 (amended): the empty input produces a report, not an error: the
extraction of an empty document yields no domains, both execution modes
return the empty result list, and the persisted report has zero domains,
`total_domains` 0, and a summary that is the empty object — the three
distribution keys are absent rather than present as empty histograms. -/
theorem empty_input_report :
    extractDomainsFromJson (.ok ⟨[]⟩) = [] ∧
    analyzeDomainsFromJson okWork (fun l => l) (.ok ⟨[]⟩) true = .ok [] ∧
    analyzeDomainsFromJson okWork (fun l => l) (.ok ⟨[]⟩) false = .ok [] ∧
    buildDomainReport [] =
      { total_domains := 0
        description :=
          "Domain analysis report from Million Dollar Homepage pixel data"
        summary := none
        domains := [] } := by
  refine ⟨?_, ?_, ?_, rfl⟩
  · simp [extractDomainsFromJson, sortedUnique]
  · simp [analyzeDomainsFromJson, analyzeDomainsThreaded, collectCompleted,
      extractDomainsFromJson, sortedUnique, Except.map]
  · simp [analyzeDomainsFromJson, analyzeDomainsSequential,
      extractDomainsFromJson, sortedUnique]

/-- C8 counterexample: on the empty result list `_generate_summary`
returns the empty dict, so the summary does not contain the three
distributions as empty histograms. -/
theorem empty_summary_counterexample :
    generateSummary [] = none ∧
    generateSummary [] ≠
      some { dns_status_distribution := []
             http_status_distribution := []
             whois_status_distribution := [] } := by
  refine ⟨rfl, by simp [generateSummary]⟩

/-- C9 (amended): a missing or corrupt input file is caught inside the
extractor, logged, and treated as an empty domain set: extraction
returns the empty list for each of the three caught error classes, the
analysis then completes normally in either mode with an empty result
list, and a report over zero domains is still produced — nothing is
surfaced to the caller as a fatal error. -/
theorem corrupt_input_absorbed (msg : String)
    (work : String → Except PyError AnalysisResult)
    (schedule : List String → List String) (hs : schedule [] = []) :
    extractDomainsFromJson (.ioError msg) = [] ∧
    extractDomainsFromJson (.jsonDecodeError msg) = [] ∧
    extractDomainsFromJson (.keyError msg) = [] ∧
    analyzeDomainsFromJson work schedule (.ioError msg) true = .ok [] ∧
    analyzeDomainsFromJson work schedule (.ioError msg) false = .ok [] ∧
    analyzeDomainsFromJson work schedule (.jsonDecodeError msg) true = .ok [] ∧
    analyzeDomainsFromJson work schedule (.jsonDecodeError msg) false = .ok [] ∧
    analyzeDomainsFromJson work schedule (.keyError msg) true = .ok [] ∧
    analyzeDomainsFromJson work schedule (.keyError msg) false = .ok [] ∧
    buildDomainReport [] =
      { total_domains := 0
        description :=
          "Domain analysis report from Million Dollar Homepage pixel data"
        summary := none
        domains := [] } := by
  refine ⟨rfl, rfl, rfl, ?_, rfl, ?_, rfl, ?_, rfl, rfl⟩ <;>
    simp [analyzeDomainsFromJson, analyzeDomainsThreaded, collectCompleted,
      extractDomainsFromJson, hs, Except.map]

/-- C9 counterexample: at a concrete unreadable file the extractor
returns the empty list instead of raising, the analysis call returns a
normal (non-error) empty result, and a zero-domain report is still
produced — contradicting "surfaced as a fatal error, no report
produced". -/
theorem fatal_input_counterexample :
    extractDomainsFromJson (.ioError "No such file or directory") = [] ∧
    analyzeDomainsFromJson okWork (fun l => l)
      (.ioError "No such file or directory") false = .ok [] ∧
    (buildDomainReport []).total_domains = 0 :=
  ⟨rfl, rfl, rfl⟩

/-- Witness for C9 (amended) at a concrete message, work unit and
schedule. -/
theorem corrupt_input_absorbed_witness :
    extractDomainsFromJson (.ioError "bad") = [] ∧
    extractDomainsFromJson (.jsonDecodeError "bad") = [] ∧
    extractDomainsFromJson (.keyError "bad") = [] ∧
    analyzeDomainsFromJson okWork (fun l => l) (.ioError "bad") true = .ok [] ∧
    analyzeDomainsFromJson okWork (fun l => l) (.ioError "bad") false = .ok [] ∧
    analyzeDomainsFromJson okWork (fun l => l) (.jsonDecodeError "bad") true =
      .ok [] ∧
    analyzeDomainsFromJson okWork (fun l => l) (.jsonDecodeError "bad") false =
      .ok [] ∧
    analyzeDomainsFromJson okWork (fun l => l) (.keyError "bad") true = .ok [] ∧
    analyzeDomainsFromJson okWork (fun l => l) (.keyError "bad") false = .ok [] ∧
    buildDomainReport [] =
      { total_domains := 0
        description :=
          "Domain analysis report from Million Dollar Homepage pixel data"
        summary := none
        domains := [] } :=
  corrupt_input_absorbed "bad" okWork (fun l => l) rfl

theorem sortedUnique_sorted_nodup_mem (l : List String) :
    List.Pairwise (fun a b : String => a ≤ b) (sortedUnique l) ∧
    (sortedUnique l).Nodup ∧ ∀ s, s ∈ sortedUnique l ↔ s ∈ l := by
  refine ⟨?_, ?_, ?_⟩
  · exact (List.sorted_mergeSort stringLe_trans stringLe_total l.dedup).imp
      (fun h => by simpa [stringLe] using h)
  · exact (List.mergeSort_perm l.dedup stringLe).symm.nodup (List.nodup_dedup l)
  · intro s
    simp [sortedUnique]

/-- C10 (amended): for every parsed document, extraction returns a
duplicate-free list sorted ascending, whose elements are exactly the
stripped non-empty `domain` fields of the document's entries; the
elements are returned as found — no lowercasing, scheme or www-run
removal, dot requirement or whitespace validation is applied. -/
theorem extraction_sorted_unique (data : PixelData) :
    List.Pairwise (fun a b : String => a ≤ b)
      (extractDomainsFromJson (.ok data)) ∧
    (extractDomainsFromJson (.ok data)).Nodup ∧
    (∀ s ∈ extractDomainsFromJson (.ok data),
      s ≠ "" ∧ ∃ e ∈ data.domains, pyStrip e.domain = s) ∧
    ∀ e ∈ data.domains, pyStrip e.domain ≠ "" →
      pyStrip e.domain ∈ extractDomainsFromJson (.ok data) := by
  obtain ⟨hsort, hnodup, hmem⟩ := sortedUnique_sorted_nodup_mem
    ((data.domains.map (fun e => pyStrip e.domain)).filter (fun s => s ≠ ""))
  refine ⟨hsort, hnodup, ?_, ?_⟩
  · intro s hs
    have h2 := (hmem s).mp hs
    rw [List.mem_filter] at h2
    obtain ⟨h3, h4⟩ := h2
    obtain ⟨e, he, hes⟩ := List.mem_map.mp h3
    exact ⟨by simpa using h4, e, he, hes⟩
  · intro e he hne
    refine (hmem _).mpr ?_
    rw [List.mem_filter]
    refine ⟨List.mem_map_of_mem _ he, by simpa using hne⟩

/-- C10 counterexample: the extractor performs no normalization: an
entry in uppercase carrying a leading www run is returned verbatim,
violating the spec's Domain invariant. -/
theorem extraction_normalized_counterexample :
    extractDomainsFromJson (.ok ⟨[⟨"WWW.Example.com"⟩]⟩) =
      ["WWW.Example.com"] ∧
    specNormalizedDomain "WWW.Example.com" = false := by
  constructor
  · have h : (([⟨"WWW.Example.com"⟩] : List DomainEntry).map
        (fun e => pyStrip e.domain)).filter (fun s => s ≠ "") =
        ["WWW.Example.com"] := by decide
    show sortedUnique _ = _
    rw [h, sortedUnique]
    have h2 : (["WWW.Example.com"] : List String).dedup =
        ["WWW.Example.com"] := by decide
    rw [h2, List.mergeSort_singleton]
  · decide

/-- Witness for C10 (amended) at a concrete two-entry document. -/
theorem extraction_sorted_unique_witness :
    List.Pairwise (fun a b : String => a ≤ b)
      (extractDomainsFromJson (.ok ⟨[⟨"b.test"⟩, ⟨"a.test"⟩]⟩)) ∧
    (extractDomainsFromJson (.ok ⟨[⟨"b.test"⟩, ⟨"a.test"⟩]⟩)).Nodup ∧
    (∀ s ∈ extractDomainsFromJson (.ok ⟨[⟨"b.test"⟩, ⟨"a.test"⟩]⟩),
      s ≠ "" ∧ ∃ e ∈ ([⟨"b.test"⟩, ⟨"a.test"⟩] : List DomainEntry),
        pyStrip e.domain = s) ∧
    ∀ e ∈ ([⟨"b.test"⟩, ⟨"a.test"⟩] : List DomainEntry),
      pyStrip e.domain ≠ "" →
      pyStrip e.domain ∈ extractDomainsFromJson (.ok ⟨[⟨"b.test"⟩, ⟨"a.test"⟩]⟩) :=
  extraction_sorted_unique ⟨[⟨"b.test"⟩, ⟨"a.test"⟩]⟩

end MdhAnalyzer
